import Mathlib

/-!
Shallow embedding of the Lua actor subsystem of MacroQuest
(`src/plugins/lua/LuaActor.cpp`, `src/plugins/lua/LuaActor.h`).

The embedding models:
- Lua values (`LuaVal`) as far as this subsystem observes them;
- the mailbox table created by `LuaMailbox::Register` (fields `__current_id`,
  `__messages`, `__callbacks`, `messages_per_frame`) merged with the C++
  `LuaMailbox` object (`m_name`, `m_responses`) into one structure;
- the process-wide registry `s_mailboxes`, the response heap (live
  `LuaResponse` objects) and the set of live `LuaThread` contexts as explicit
  state in a `World` structure; a weak pointer is a key whose `lock()` is an
  association-list lookup that fails exactly when the object is gone.

Machine integers: the Lua id counter is held in a Lua number, which represents
`10^12` exactly, so ids are embedded as `Int` with no overflow reduction.
-/

/-- A Lua value as observed by this subsystem (payloads, handler results). -/
inductive LuaVal where
  | nil
  | num (n : Int)
  | str (s : String)
  | boolean (b : Bool)
  deriving DecidableEq

/-- A queued message, as built by the `receive` closure
(LuaActor.cpp line 73): `{ id, topic, payload }`. Immutable once enqueued. -/
structure Message where
  id : Int
  topic : String
  payload : LuaVal
  deriving DecidableEq

/-- `struct LuaResponse` (LuaActor.h lines 20-25): received flag, value, and
the state (context) that must eventually read the value. -/
structure LuaResponse where
  m_received : Bool
  m_value : LuaVal
  m_targetState : Nat
  deriving DecidableEq

/-- Association-list lookup; models map `find` plus weak-pointer `lock` (a
key maps to its value exactly while the entry is present). -/
def alookup {κ α : Type} [DecidableEq κ] : List (κ × α) → κ → Option α
  | [], _ => none
  | e :: rest, k => if e.1 = k then some e.2 else alookup rest k

/-- Association-list erase; models `map::erase(key)`. -/
def aerase {κ α : Type} [DecidableEq κ] : List (κ × α) → κ → List (κ × α)
  | [], _ => []
  | e :: rest, k => if e.1 = k then aerase rest k else e :: aerase rest k

/-- Association-list overwrite-insert; models `map[key] = value`. -/
def aset {κ α : Type} [DecidableEq κ] (l : List (κ × α)) (k : κ) (v : α) :
    List (κ × α) :=
  (k, v) :: aerase l k

/-- A mailbox: the C++ `LuaMailbox` object together with its Lua-side table
(LuaActor.cpp lines 96-105).  `ctx` is the owning context (`lua_state`);
`m_responses` maps a message id to the key of a (weakly held) response. -/
structure LuaMailbox where
  m_name : String
  ctx : Nat
  current_id : Int
  messages : List Message
  callbacks : List (String × (LuaVal → LuaVal))
  messages_per_frame : Nat
  m_responses : List (Int × Nat)

/-- Modelled from the spec: the Value Bridge (`LuaThread::CopyObject`, in
LuaThread.h which is not under src/) copies a value from one interpreter heap
into an equivalent value of another heap; on the single value domain of this
model the equivalent copy is the value itself. -/
def copyObject (v : LuaVal) : LuaVal := v

/-- The `receive` Lua closure (LuaActor.cpp lines 64-76): advance
`__current_id` (wrapping from `10^12` to 1), insert the new message at the
front of `__messages`, return the id. -/
def sendMsg (mb : LuaMailbox) (topic : String) (payload : LuaVal) :
    LuaMailbox × Int :=
  let newId : Int := if mb.current_id = 1000000000000 then 1
                     else mb.current_id + 1
  ({ mb with
      current_id := newId,
      messages := { id := newId, topic := topic, payload := payload }
        :: mb.messages },
   newId)

/-- `LuaMailbox::Receive` (LuaActor.cpp lines 40-48): when the owning context
is live the payload goes through the Value Bridge; otherwise the closure is
still invoked with a nil payload (the source also dereferences the null
context pointer at line 43 before its own null check, which this model does
not represent).  Both branches enqueue and return the new id. -/
def LuaMailbox.Receive (ctxs : List (Nat × String)) (mb : LuaMailbox)
    (topic : String) (payload : LuaVal) : LuaMailbox × Int :=
  match alookup ctxs mb.ctx with
  | some _ => sendMsg mb topic (copyObject payload)
  | none => sendMsg mb topic LuaVal.nil

/-- `LuaMailbox::AddResponse` (LuaActor.cpp lines 50-53):
`m_responses[id] = response`. -/
def LuaMailbox.AddResponse (mb : LuaMailbox) (id : Int) (rp : Nat) :
    LuaMailbox :=
  { mb with m_responses := aset mb.m_responses id rp }

/-- The `add_callback` Lua closure (LuaActor.cpp lines 88-94); the
`type(callback) == 'function'` guard holds by typing in this model. -/
def addCallback (mb : LuaMailbox) (topic : String) (f : LuaVal → LuaVal) :
    LuaMailbox :=
  { mb with callbacks := aset mb.callbacks topic f }

/-- `table.remove(self.__messages)` (LuaActor.cpp line 80): remove and
return the last element of the list (the oldest message, since `receive`
inserts at position 1). -/
def popMsg (mb : LuaMailbox) : Option Message × LuaMailbox :=
  (mb.messages.getLast?, { mb with messages := mb.messages.dropLast })

/-- The `process` Lua closure (LuaActor.cpp lines 78-86): pop the oldest
message, invoke the per-topic callback if one is registered, and return the
message id together with the callback result (or nil). The `none` message
case is unreachable under the drain guard (`__messages` size > 0). -/
def processOne (mb : LuaMailbox) : LuaMailbox × Int × LuaVal :=
  match mb.messages.getLast? with
  | none => ({ mb with messages := mb.messages.dropLast }, 0, LuaVal.nil)
  | some msg =>
    match alookup mb.callbacks msg.topic with
    | some f =>
      ({ mb with messages := mb.messages.dropLast }, msg.id, f msg.payload)
    | none =>
      ({ mb with messages := mb.messages.dropLast }, msg.id, LuaVal.nil)

/-- The response-resolution block of `LuaMailbox::Process`
(LuaActor.cpp lines 144-159): look the id up in `m_responses`; if present,
lock the weak response; if alive and its target context is alive, mark it
received with the bridged value; in every found case erase the entry. -/
def resolveStep (ctxs : List (Nat × String)) (mb : LuaMailbox)
    (respHeap : List (Nat × LuaResponse)) (id : Int) (val : LuaVal) :
    LuaMailbox × List (Nat × LuaResponse) :=
  match alookup mb.m_responses id with
  | none => (mb, respHeap)
  | some rp =>
    let rh' :=
      match alookup respHeap rp with
      | none => respHeap
      | some r =>
        match alookup ctxs r.m_targetState with
        | none => respHeap
        | some _ =>
          aset respHeap rp
            { r with m_received := true, m_value := copyObject val }
    ({ mb with m_responses := aerase mb.m_responses id }, rh')

/-- One iteration of the inner drain loop (LuaActor.cpp lines 129-159):
run the `process` closure, then the resolution block. -/
def drainStep (ctxs : List (Nat × String)) (mb : LuaMailbox)
    (respHeap : List (Nat × LuaResponse)) :
    LuaMailbox × List (Nat × LuaResponse) :=
  match processOne mb with
  | (mb', id, v) => resolveStep ctxs mb' respHeap id v

/-- The inner drain loop of `LuaMailbox::Process` (LuaActor.cpp line 127):
`for (m_num = 0; __messages.size() > 0 && m_num < messages_per_frame; ++m_num)`;
the fuel argument is the remaining iteration budget. -/
def drainLoop (ctxs : List (Nat × String)) :
    Nat → LuaMailbox → List (Nat × LuaResponse) →
    LuaMailbox × List (Nat × LuaResponse)
  | 0, mb, rh => (mb, rh)
  | fuel + 1, mb, rh =>
    if mb.messages.isEmpty then (mb, rh)
    else
      match drainStep ctxs mb rh with
      | (mb', rh') => drainLoop ctxs fuel mb' rh'

/-- The per-mailbox part of `LuaMailbox::Process` (LuaActor.cpp
lines 126-160): run the drain loop with budget `messages_per_frame`. -/
def drainMailbox (ctxs : List (Nat × String)) (mb : LuaMailbox)
    (respHeap : List (Nat × LuaResponse)) :
    LuaMailbox × List (Nat × LuaResponse) :=
  drainLoop ctxs mb.messages_per_frame mb respHeap

/-- Process-wide state: the registry `s_mailboxes` (LuaActor.cpp line 24,
insertion-ordered per the spec, case-insensitive keys), the heaps of live
mailboxes and live responses (a key absent from a heap is a dead weak
reference), the live contexts (`LuaThread::get_from` succeeds on them), and
fresh-key allocators. -/
structure World where
  registry : List (String × Nat)
  mbHeap : List (Nat × LuaMailbox)
  respHeap : List (Nat × LuaResponse)
  contexts : List (Nat × String)
  nextMb : Nat
  nextResp : Nat

/-- Modelled from the spec: `ci_unordered::map` comes from
common/StringUtils.h, which is not under src/; the spec states the registry
keys are case-insensitive, so key equality compares the lower-cased
character sequences of the names. -/
def ciEq (a b : String) : Bool :=
  a.data.map Char.toLower == b.data.map Char.toLower

/-- Registry lookup (`s_mailboxes.find(name)`), case-insensitive, first
match in insertion order. -/
def regFind (reg : List (String × Nat)) (name : String) : Option Nat :=
  match reg with
  | [] => none
  | e :: rest => if ciEq e.1 name then some e.2 else regFind rest name

/-- `Exists` (LuaActor.cpp lines 26-29): a registry entry is present. -/
def LuaActors.Exists (w : World) (name : String) : Bool :=
  (regFind w.registry name).isSome

/-- `Get` (LuaActor.cpp lines 31-38): an actor handle holding the weak
mailbox reference currently registered under the name, if any. -/
def LuaActors.Get (w : World) (name : String) : Option Nat :=
  regFind w.registry name

/-- A fresh mailbox as constructed by `LuaMailbox::Register`
(LuaActor.cpp lines 60, 96-105): `__current_id = 0`, empty message and
callback tables, `messages_per_frame = 10`. -/
def freshMailbox (name : String) (ctx : Nat) : LuaMailbox :=
  { m_name := name, ctx := ctx, current_id := 0, messages := [],
    callbacks := [], messages_per_frame := 10, m_responses := [] }

/-- `LuaMailbox::Register` (LuaActor.cpp lines 55-114): requires a live
calling context and no registry entry for the context's name; on success
constructs the mailbox, stores a weak registry entry, and returns the
mailbox handle; otherwise returns nil. -/
def LuaMailbox.Register (w : World) (ctx : Nat) : World × Option Nat :=
  match alookup w.contexts ctx with
  | none => (w, none)
  | some name =>
    match regFind w.registry name with
    | some _ => (w, none)
    | none =>
      let p := w.nextMb
      ({ w with
          mbHeap := aset w.mbHeap p (freshMailbox name ctx),
          registry := w.registry ++ [(name, p)],
          nextMb := p + 1 },
       some p)

/-- `LuaMailbox::~LuaMailbox` (LuaActor.cpp lines 193-196): the mailbox
leaves the heap and erases its own name (case-insensitively) from the
registry. -/
def LuaMailbox.destroy (w : World) (p : Nat) : World :=
  match alookup w.mbHeap p with
  | none => w
  | some mb =>
    { w with
        mbHeap := aerase w.mbHeap p,
        registry := w.registry.filter (fun e => !(ciEq e.1 mb.m_name)) }

/-- One registry entry of the outer `Process` loop (LuaActor.cpp
lines 118-162): lock the weak mailbox, require a live owning context, then
run the drain loop and store back the updated mailbox and response heap. -/
def processEntry (w : World) (e : String × Nat) : World :=
  match alookup w.mbHeap e.2 with
  | none => w
  | some mb =>
    match alookup w.contexts mb.ctx with
    | none => w
    | some _ =>
      match drainMailbox w.contexts mb w.respHeap with
      | (mb', rh') =>
        { w with mbHeap := aset w.mbHeap e.2 mb', respHeap := rh' }

/-- `LuaMailbox::Process` (LuaActor.cpp lines 116-164): drain every
registered mailbox. -/
def LuaMailbox.Process (w : World) : World :=
  w.registry.foldl processEntry w

/-- Iterated drain: `n` consecutive host ticks, each invoking
`LuaMailbox::Process`. -/
def processIter : World → Nat → World
  | w, 0 => w
  | w, n + 1 => processIter (LuaMailbox.Process w) n

/-- `LuaActor::Tell` (LuaActor.cpp lines 166-173): lock the weak target
mailbox; if live, `Receive`; otherwise do nothing. -/
def LuaActor.Tell (w : World) (target : Nat) (topic : String)
    (payload : LuaVal) : World :=
  match alookup w.mbHeap target with
  | none => w
  | some mb =>
    match LuaMailbox.Receive w.contexts mb topic payload with
    | (mb', _) => { w with mbHeap := aset w.mbHeap target mb' }

/-- `LuaActor::Ask` (LuaActor.cpp lines 175-187): with a live target, create
an unresolved response, enqueue via `Receive`, register the response under
the returned id, and return it; with a dead target, return a response
already marked received with a nil value.  The returned `Nat` is the key of
the response held strongly by the caller. -/
def LuaActor.Ask (w : World) (target : Nat) (topic : String)
    (payload : LuaVal) (caller : Nat) : World × Nat :=
  match alookup w.mbHeap target with
  | some mb =>
    let rp := w.nextResp
    match LuaMailbox.Receive w.contexts mb topic payload with
    | (mb1, id) =>
      ({ w with
          respHeap := aset w.respHeap rp
            { m_received := false, m_value := LuaVal.nil,
              m_targetState := caller },
          mbHeap := aset w.mbHeap target (mb1.AddResponse id rp),
          nextResp := rp + 1 },
       rp)
  | none =>
    let rp := w.nextResp
    ({ w with
        respHeap := aset w.respHeap rp
          { m_received := true, m_value := LuaVal.nil,
            m_targetState := caller },
        nextResp := rp + 1 },
     rp)

/-- Position of the first case-insensitive match, mirroring
`std::distance` from `begin()` to `find(k)` in `StatelessIterator`. -/
def findIdxCI (reg : List (String × Nat)) (s : String) : Option Nat :=
  match reg with
  | [] => none
  | e :: rest =>
    if ciEq e.1 s then some 0 else (findIdxCI rest s).map (· + 1)

/-- `StatelessIterator` (LuaActor.cpp lines 198-214): nil on an empty
registry; the first name when no key is given; the name after a given key's
entry, or nil at the end.  (For a key that is not registered the source
applies `std::next` to the end iterator, which has no defined behavior;
this model returns nil there.) -/
def StatelessIterator (reg : List (String × Nat)) (k : Option String) :
    Option String :=
  match reg with
  | [] => none
  | e :: rest =>
    match k with
    | none => some e.1
    | some s =>
      match findIdxCI (e :: rest) s with
      | none => none
      | some i => ((e :: rest).get? (i + 1)).map (·.1)

/-- The response keys a mailbox still refers to weakly. -/
def respRefs (mb : LuaMailbox) : List Nat := mb.m_responses.map Prod.snd

/-- No live mailbox refers to response key `rp`. -/
def NoRef (w : World) (rp : Nat) : Prop :=
  ∀ q mbq, alookup w.mbHeap q = some mbq → rp ∉ respRefs mbq

/-- Registry well-formedness: pairwise case-insensitively distinct names
(`s_mailboxes` is a map keyed by name). -/
def RegistryOk (reg : List (String × Nat)) : Prop :=
  reg.Pairwise (fun a b => ciEq a.1 b.1 = false)

/-- Enqueue a whole list of messages through the `receive` closure with no
interleaved pop. -/
def sendAll (mb : LuaMailbox) (xs : List (String × LuaVal)) : LuaMailbox :=
  xs.foldl (fun m x => (sendMsg m x.1 x.2).1) mb

/-- Pop `n` messages through `table.remove`, collecting them in pop order. -/
def popAll : LuaMailbox → Nat → List Message × LuaMailbox
  | mb, 0 => ([], mb)
  | mb, n + 1 =>
    match mb.messages.getLast? with
    | none => ([], { mb with messages := mb.messages.dropLast })
    | some msg =>
      match popAll { mb with messages := mb.messages.dropLast } n with
      | (rest, mbf) => (msg :: rest, mbf)

/-- The part of a message fixed by the sender: topic and payload. -/
def msgData (m : Message) : String × LuaVal := (m.topic, m.payload)

/-! ## Concrete states used by the witness theorems -/

/-- A mailbox with one pending response entry (message id 5, response key 0),
owned by context 3. -/
def mbW1 : LuaMailbox :=
  { m_name := "alpha", ctx := 3, current_id := 6, messages := [],
    callbacks := [], messages_per_frame := 10, m_responses := [(5, 0)] }

/-- A response heap with one unresolved response (key 0) targeted at
context 3. -/
def rhW1 : List (Nat × LuaResponse) :=
  [(0, { m_received := false, m_value := LuaVal.nil, m_targetState := 3 })]

/-- A fresh mailbox used by the FIFO witness. -/
def mbW2 : LuaMailbox := freshMailbox "beta" 1

/-- A world with one live context and nothing registered. -/
def wW3 : World :=
  { registry := [], mbHeap := [], respHeap := [], contexts := [(1, "gamma")],
    nextMb := 0, nextResp := 0 }

/-- A mailbox owned by context 9 (dead in the receive witness). -/
def mbW4 : LuaMailbox := freshMailbox "delta" 9

/-- A mailbox with five queued messages and a drain cap of 2. -/
def mbW5 : LuaMailbox :=
  { m_name := "epsilon", ctx := 2, current_id := 5,
    messages :=
      [{ id := 5, topic := "e", payload := LuaVal.num 50 },
       { id := 4, topic := "d", payload := LuaVal.num 40 },
       { id := 3, topic := "c", payload := LuaVal.num 30 },
       { id := 2, topic := "b", payload := LuaVal.num 20 },
       { id := 1, topic := "a", payload := LuaVal.num 10 }],
    callbacks := [], messages_per_frame := 2, m_responses := [] }

/-- The world around `mbW5`: its mailbox registered and its context live. -/
def wW5 : World :=
  { registry := [("epsilon", 0)], mbHeap := [(0, mbW5)], respHeap := [],
    contexts := [(2, "epsilon")], nextMb := 1, nextResp := 0 }

/-- A live mailbox targeted by the ask witness, owned by context 4. -/
def mbW6 : LuaMailbox := freshMailbox "zeta" 4

/-- An empty world: every weak reference into it is dead. -/
def wW6D : World :=
  { registry := [], mbHeap := [], respHeap := [], contexts := [],
    nextMb := 0, nextResp := 0 }

/-- A world in which `mbW6` is registered and its context is live. -/
def wW6L : World :=
  { registry := [("zeta", 0)], mbHeap := [(0, mbW6)], respHeap := [],
    contexts := [(4, "zeta")], nextMb := 1, nextResp := 0 }

/-- A world in which context 5's name "eta" is already registered. -/
def wW7 : World :=
  { registry := [("eta", 0)], mbHeap := [(0, freshMailbox "eta" 5)],
    respHeap := [], contexts := [(5, "eta")], nextMb := 1, nextResp := 0 }

/-- An unresolved response held by a caller in context 1. -/
def rW8 : LuaResponse :=
  { m_received := false, m_value := LuaVal.nil, m_targetState := 1 }

/-- A mailbox holding a pending-response entry (id 3 mapped to response
key 5), about to be destroyed. -/
def mbW8 : LuaMailbox :=
  { m_name := "theta", ctx := 0, current_id := 3, messages := [],
    callbacks := [], messages_per_frame := 10, m_responses := [(3, 5)] }

/-- The world around `mbW8`: registered, its response in the heap, and no
live contexts. -/
def wW8 : World :=
  { registry := [("theta", 0)], mbHeap := [(0, mbW8)], respHeap := [(5, rW8)],
    contexts := [], nextMb := 1, nextResp := 6 }

/-! ## Association-list lemmas -/

theorem alookup_aerase_self {κ α : Type} [DecidableEq κ]
    (l : List (κ × α)) (k : κ) : alookup (aerase l k) k = none := by
  induction l with
  | nil => rfl
  | cons e rest ih =>
    by_cases h : e.1 = k
    · simpa [aerase, h] using ih
    · simpa [aerase, alookup, h] using ih

theorem alookup_aerase_ne {κ α : Type} [DecidableEq κ]
    (l : List (κ × α)) (k k' : κ) (h : k' ≠ k) :
    alookup (aerase l k) k' = alookup l k' := by
  induction l with
  | nil => rfl
  | cons e rest ih =>
    by_cases he : e.1 = k
    · simpa [aerase, alookup, he, h, Ne.symm h] using ih
    · by_cases h2 : e.1 = k'
      · simp [aerase, alookup, he, h2, h]
      · simpa [aerase, alookup, he, h2] using ih

theorem alookup_aset_self {κ α : Type} [DecidableEq κ]
    (l : List (κ × α)) (k : κ) (v : α) : alookup (aset l k v) k = some v := by
  simp [aset, alookup]

theorem alookup_aset_ne {κ α : Type} [DecidableEq κ]
    (l : List (κ × α)) (k k' : κ) (v : α) (h : k' ≠ k) :
    alookup (aset l k v) k' = alookup l k' := by
  simp only [aset, alookup]
  rw [if_neg (fun hc : k = k' => h hc.symm)]
  exact alookup_aerase_ne l k k' h

theorem alookup_mem_values {κ α : Type} [DecidableEq κ]
    (l : List (κ × α)) (k : κ) (v : α) (h : alookup l k = some v) :
    v ∈ l.map Prod.snd := by
  induction l with
  | nil => simp [alookup] at h
  | cons e rest ih =>
    simp only [alookup] at h
    by_cases he : e.1 = k
    · simp [he] at h
      simp [h]
    · simp [he] at h
      simp [ih h]

theorem aerase_values_subset {κ α : Type} [DecidableEq κ]
    (l : List (κ × α)) (k : κ) (x : α)
    (h : x ∈ (aerase l k).map Prod.snd) : x ∈ l.map Prod.snd := by
  induction l with
  | nil => simp [aerase] at h
  | cons e rest ih =>
    by_cases he : e.1 = k
    · simp only [aerase, he, if_pos] at h
      simp [ih h]
    · simp only [aerase, he, if_neg, not_false_iff, List.map_cons,
        List.mem_cons] at h
      rcases h with h | h
      · simp [h]
      · simp [ih h]

/-! ## Structural lemmas about the drain loop -/

theorem resolveStep_absent (ctxs : List (Nat × String)) (mb : LuaMailbox)
    (rh : List (Nat × LuaResponse)) (id : Int) (v : LuaVal)
    (h : alookup mb.m_responses id = none) :
    resolveStep ctxs mb rh id v = (mb, rh) := by
  simp [resolveStep, h]

theorem resolveStep_messages (ctxs : List (Nat × String)) (mb : LuaMailbox)
    (rh : List (Nat × LuaResponse)) (id : Int) (v : LuaVal) :
    (resolveStep ctxs mb rh id v).1.messages = mb.messages := by
  unfold resolveStep
  cases alookup mb.m_responses id <;> rfl

theorem processOne_messages (mb : LuaMailbox) :
    (processOne mb).1.messages = mb.messages.dropLast := by
  unfold processOne
  split
  · rfl
  · split <;> rfl

theorem processOne_responses (mb : LuaMailbox) :
    (processOne mb).1.m_responses = mb.m_responses := by
  unfold processOne
  split
  · rfl
  · split <;> rfl

theorem drainStep_messages (ctxs : List (Nat × String)) (mb : LuaMailbox)
    (rh : List (Nat × LuaResponse)) :
    (drainStep ctxs mb rh).1.messages = mb.messages.dropLast := by
  unfold drainStep
  rw [resolveStep_messages, processOne_messages]

theorem drainLoop_length (ctxs : List (Nat × String)) (fuel : Nat) :
    ∀ (mb : LuaMailbox) (rh : List (Nat × LuaResponse)),
    (drainLoop ctxs fuel mb rh).1.messages.length =
      mb.messages.length - min mb.messages.length fuel := by
  induction fuel with
  | zero => intro mb rh; simp [drainLoop]
  | succ fuel ih =>
    intro mb rh
    by_cases hemp : mb.messages.isEmpty
    · rw [drainLoop, if_pos hemp]
      rw [List.isEmpty_iff] at hemp
      simp [hemp]
    · rw [drainLoop, if_neg hemp]
      rw [List.isEmpty_iff] at hemp
      obtain ⟨q, hq⟩ : ∃ q, mb.messages.length = q + 1 := by
        cases hms : mb.messages with
        | nil => exact absurd hms hemp
        | cons a l => exact ⟨l.length, by simp [hms]⟩
      have hstep : (drainStep ctxs mb rh).1.messages.length = q := by
        rw [drainStep_messages, List.length_dropLast, hq]
        omega
      rw [ih, hstep, hq, Nat.succ_min_succ]
      omega

/-! ## C1: exactly-once resolution -/

/-- C1: resolution of a response future is exactly-once.  When a drain pass
finds a `pendingResponses` (`m_responses`) entry for a message id, the first
resolution attempt removes the entry — regardless of whether a live waiter
existed — so a second resolution attempt for the same id is a no-op (it
changes neither the mailbox nor the response heap), and in particular the
future's received flag is set to true at most once. -/
theorem resolveStep_exactly_once (ctxs : List (Nat × String))
    (mb : LuaMailbox) (rh : List (Nat × LuaResponse)) (id : Int)
    (v v2 : LuaVal) (h : (alookup mb.m_responses id).isSome = true) :
    alookup (resolveStep ctxs mb rh id v).1.m_responses id = none ∧
    resolveStep ctxs (resolveStep ctxs mb rh id v).1
        (resolveStep ctxs mb rh id v).2 id v2 =
      resolveStep ctxs mb rh id v := by
  obtain ⟨rp, hrp⟩ := Option.isSome_iff_exists.mp h
  have h1 : (resolveStep ctxs mb rh id v).1.m_responses =
      aerase mb.m_responses id := by
    simp [resolveStep, hrp]
  have h2 : alookup (resolveStep ctxs mb rh id v).1.m_responses id = none := by
    rw [h1]; exact alookup_aerase_self _ _
  exact ⟨h2, resolveStep_absent _ _ _ _ _ h2⟩

/-- C1 witness: concrete first and second resolution attempts for id 5. -/
theorem resolveStep_exactly_once_witness :
    alookup (resolveStep [(3, "alpha")] mbW1 rhW1 5 (LuaVal.num 1)).1.m_responses
        5 = none ∧
    resolveStep [(3, "alpha")]
        (resolveStep [(3, "alpha")] mbW1 rhW1 5 (LuaVal.num 1)).1
        (resolveStep [(3, "alpha")] mbW1 rhW1 5 (LuaVal.num 1)).2 5
        (LuaVal.num 2) =
      resolveStep [(3, "alpha")] mbW1 rhW1 5 (LuaVal.num 1) :=
  resolveStep_exactly_once [(3, "alpha")] mbW1 rhW1 5 (LuaVal.num 1)
    (LuaVal.num 2) (by decide)

/-! ## C10: pending entry erased even when the target context is gone -/

/-- C10: when the drain loop resolves an id whose pending response is still
alive but whose target context is no longer alive, the response itself is
left untouched (the response heap is unchanged, so its received flag and
value are unchanged), yet the `m_responses` entry is still erased, so the
future can never become received afterwards. -/
theorem resolveStep_dead_target_context (ctxs : List (Nat × String))
    (mb : LuaMailbox) (rh : List (Nat × LuaResponse)) (id : Int) (v : LuaVal)
    (rp : Nat) (r : LuaResponse)
    (h1 : alookup mb.m_responses id = some rp)
    (h2 : alookup rh rp = some r)
    (h3 : alookup ctxs r.m_targetState = none) :
    (resolveStep ctxs mb rh id v).2 = rh ∧
    alookup (resolveStep ctxs mb rh id v).2 rp = some r ∧
    alookup (resolveStep ctxs mb rh id v).1.m_responses id = none := by
  have hres : resolveStep ctxs mb rh id v =
      ({ mb with m_responses := aerase mb.m_responses id }, rh) := by
    simp [resolveStep, h1, h2, h3]
  rw [hres]
  exact ⟨rfl, h2, alookup_aerase_self _ _⟩

/-- C10 witness: the single pending response targets context 3, which is not
among the live contexts. -/
theorem resolveStep_dead_target_context_witness :
    (resolveStep [] mbW1 rhW1 5 (LuaVal.num 7)).2 = rhW1 ∧
    alookup (resolveStep [] mbW1 rhW1 5 (LuaVal.num 7)).2 0 =
      some { m_received := false, m_value := LuaVal.nil, m_targetState := 3 } ∧
    alookup (resolveStep [] mbW1 rhW1 5 (LuaVal.num 7)).1.m_responses 5 =
      none :=
  resolveStep_dead_target_context [] mbW1 rhW1 5 (LuaVal.num 7) 0
    { m_received := false, m_value := LuaVal.nil, m_targetState := 3 }
    (by decide) (by decide) (by decide)

/-! ## C2: FIFO law -/

theorem sendAll_messages (xs : List (String × LuaVal)) :
    ∀ mb : LuaMailbox,
    (sendAll mb xs).messages.map msgData =
      xs.reverse ++ mb.messages.map msgData := by
  induction xs with
  | nil => intro mb; simp [sendAll]
  | cons x xs ih =>
    intro mb
    have h1 : sendAll mb (x :: xs) = sendAll (sendMsg mb x.1 x.2).1 xs := rfl
    rw [h1, ih]
    simp [sendMsg, msgData]

theorem popAll_messages (l : List Message) :
    ∀ mb : LuaMailbox, mb.messages = l →
    (popAll mb l.length).1 = l.reverse := by
  induction l using List.reverseRecOn with
  | nil =>
    intro mb h
    simp [popAll]
  | append_singleton l a ih =>
    intro mb h
    have h1 : mb.messages.getLast? = some a := by
      rw [h]; simp
    have h2 : mb.messages.dropLast = l := by
      rw [h]; simp
    have hlen : (l ++ [a]).length = l.length + 1 := by simp
    rw [hlen]
    have hrec :
        (popAll { mb with messages := mb.messages.dropLast } l.length).1 =
          l.reverse := ih _ h2
    simp only [popAll, h1]
    cases hp : popAll { mb with messages := mb.messages.dropLast } l.length
      with
    | mk rest mbf =>
      rw [hp] at hrec
      simp at hrec
      simp [hrec]

/-- C2: FIFO law.  Starting from an empty queue, after `n` sends with no
interleaved pop, the next `n` pops (each a `table.remove` from the tail,
the sends having inserted at the head) yield exactly the `n` messages in
the order they were sent, oldest first. -/
theorem send_receive_fifo (mb : LuaMailbox) (xs : List (String × LuaVal))
    (h : mb.messages = []) :
    ((popAll (sendAll mb xs) xs.length).1).map msgData = xs := by
  have hmsg : (sendAll mb xs).messages.map msgData = xs.reverse := by
    rw [sendAll_messages, h]; simp
  have hlen : (sendAll mb xs).messages.length = xs.length := by
    have hc := congrArg List.length hmsg
    simpa using hc
  have hpop := popAll_messages (sendAll mb xs).messages (sendAll mb xs) rfl
  rw [hlen] at hpop
  rw [hpop, List.map_reverse, hmsg, List.reverse_reverse]

/-- C2 witness: three sends followed by three pops on a fresh mailbox. -/
theorem send_receive_fifo_witness :
    ((popAll (sendAll mbW2
        [("a", LuaVal.num 1), ("b", LuaVal.num 2), ("c", LuaVal.num 3)])
        [("a", LuaVal.num 1), ("b", LuaVal.num 2),
          ("c", LuaVal.num 3)].length).1).map msgData =
      [("a", LuaVal.num 1), ("b", LuaVal.num 2), ("c", LuaVal.num 3)] :=
  send_receive_fifo mbW2
    [("a", LuaVal.num 1), ("b", LuaVal.num 2), ("c", LuaVal.num 3)] rfl

/-! ## C3: id sequence -/

/-- C3: id sequence.  A freshly registered mailbox has `__current_id = 0`,
so its first send returns id 1; while the counter is below `10^12` each
send returns the previous counter plus one and stores it back (successive
ids increase by exactly 1); when the counter has reached `10^12` the next
send returns 1; and whenever the counter lies in `[0, 10^12]` the returned
id lies in `[1, 10^12]`. -/
theorem send_id_sequence (w : World) (ctx : Nat) (w' : World) (p : Nat)
    (t : String) (pay : LuaVal) (mbA mbB mbC : LuaMailbox)
    (hreg : LuaMailbox.Register w ctx = (w', some p))
    (hA : mbA.current_id < 1000000000000)
    (hB : mbB.current_id = 1000000000000)
    (hC0 : 0 ≤ mbC.current_id) (hC1 : mbC.current_id ≤ 1000000000000) :
    (∃ mb0, alookup w'.mbHeap p = some mb0 ∧ mb0.current_id = 0 ∧
      (sendMsg mb0 t pay).2 = 1) ∧
    (sendMsg mbA t pay).2 = mbA.current_id + 1 ∧
    (sendMsg mbA t pay).1.current_id = mbA.current_id + 1 ∧
    (sendMsg mbB t pay).2 = 1 ∧
    1 ≤ (sendMsg mbC t pay).2 ∧ (sendMsg mbC t pay).2 ≤ 1000000000000 := by
  have hAne : mbA.current_id ≠ 1000000000000 := ne_of_lt hA
  refine ⟨?_, by simp [sendMsg, hAne], by simp [sendMsg, hAne],
    by simp [sendMsg, hB], ?_, ?_⟩
  · unfold LuaMailbox.Register at hreg
    cases hctx : alookup w.contexts ctx with
    | none => rw [hctx] at hreg; simp at hreg
    | some name =>
      simp only [hctx] at hreg
      cases hfind : regFind w.registry name with
      | some q => simp only [hfind] at hreg; simp at hreg
      | none =>
        simp only [hfind] at hreg
        simp only [Prod.mk.injEq, Option.some.injEq] at hreg
        obtain ⟨hw', hp⟩ := hreg
        refine ⟨freshMailbox name ctx, ?_, rfl, by simp [sendMsg, freshMailbox]⟩
        rw [← hw', ← hp]
        exact alookup_aset_self _ _ _
  · unfold sendMsg
    by_cases hC : mbC.current_id = 1000000000000 <;> simp [hC] <;> omega
  · unfold sendMsg
    by_cases hC : mbC.current_id = 1000000000000 <;> simp [hC] <;> omega

/-- C3 witness: a fresh registration in `wW3` plus three concrete counter
positions (below the cap, at the cap, and inside `[0, 10^12]`). -/
theorem send_id_sequence_witness :
    (∃ mb0, alookup (LuaMailbox.Register wW3 1).1.mbHeap 0 = some mb0 ∧
      mb0.current_id = 0 ∧ (sendMsg mb0 "t" LuaVal.nil).2 = 1) ∧
    (sendMsg (freshMailbox "a" 1) "t" LuaVal.nil).2 =
      (freshMailbox "a" 1).current_id + 1 ∧
    (sendMsg (freshMailbox "a" 1) "t" LuaVal.nil).1.current_id =
      (freshMailbox "a" 1).current_id + 1 ∧
    (sendMsg { freshMailbox "b" 2 with current_id := 1000000000000 } "t"
      LuaVal.nil).2 = 1 ∧
    1 ≤ (sendMsg { freshMailbox "c" 3 with current_id := 7 } "t"
      LuaVal.nil).2 ∧
    (sendMsg { freshMailbox "c" 3 with current_id := 7 } "t" LuaVal.nil).2 ≤
      1000000000000 :=
  send_id_sequence wW3 1 (LuaMailbox.Register wW3 1).1 0 "t" LuaVal.nil
    (freshMailbox "a" 1) { freshMailbox "b" 2 with current_id := 1000000000000 }
    { freshMailbox "c" 3 with current_id := 7 }
    rfl (by decide) (by decide) (by decide) (by decide)

/-! ## C4: send with no execution context (corrected) -/

/-- C4 counterexample: `LuaMailbox::Receive` on a mailbox whose owning
context is gone does not return the sentinel -1 and does not leave the
queue unchanged — it enqueues a message with a nil payload and returns its
id (here 1). -/
theorem receive_dead_context_counterexample :
    (LuaMailbox.Receive [] mbW4 "x" (LuaVal.num 1)).2 = 1 ∧
    ¬((LuaMailbox.Receive [] mbW4 "x" (LuaVal.num 1)).2 = -1) ∧
    (LuaMailbox.Receive [] mbW4 "x" (LuaVal.num 1)).1.messages =
      [{ id := 1, topic := "x", payload := LuaVal.nil }] := by
  decide

/-- C4 as amended: when no execution context is available for the target,
`LuaMailbox::Receive` still invokes the mailbox's receive function with a
nil payload — it enqueues a message whose payload is nil and returns the
newly assigned id, exactly as a live-context send would (there is no -1
sentinel; the source moreover dereferences the null context pointer before
its own null check, which is undefined behavior not represented here). -/
theorem receive_dead_context_enqueues_nil (ctxs : List (Nat × String))
    (mb : LuaMailbox) (topic : String) (pay : LuaVal)
    (h : alookup ctxs mb.ctx = none) :
    LuaMailbox.Receive ctxs mb topic pay = sendMsg mb topic LuaVal.nil ∧
    (LuaMailbox.Receive ctxs mb topic pay).1.messages =
      { id := (LuaMailbox.Receive ctxs mb topic pay).2, topic := topic,
        payload := LuaVal.nil } :: mb.messages := by
  have h1 : LuaMailbox.Receive ctxs mb topic pay =
      sendMsg mb topic LuaVal.nil := by
    simp [LuaMailbox.Receive, h]
  exact ⟨h1, by rw [h1]; simp [sendMsg]⟩

/-- C4 witness: the amended behavior at a concrete dead-context mailbox. -/
theorem receive_dead_context_enqueues_nil_witness :
    LuaMailbox.Receive [] mbW4 "x" (LuaVal.num 1) =
      sendMsg mbW4 "x" LuaVal.nil ∧
    (LuaMailbox.Receive [] mbW4 "x" (LuaVal.num 1)).1.messages =
      { id := (LuaMailbox.Receive [] mbW4 "x" (LuaVal.num 1)).2,
        topic := "x", payload := LuaVal.nil } :: mbW4.messages :=
  receive_dead_context_enqueues_nil [] mbW4 "x" (LuaVal.num 1) rfl

/-! ## C5: drain cap -/

/-- C5: drain cap.  With a single registered mailbox holding `q` queued
messages and drain cap `c` (`messages_per_frame`, default 10), one
`Process` invocation pops exactly `min q c` messages from it, leaving
`q - min q c` queued. -/
theorem process_drain_cap (w : World) (name : String) (p : Nat)
    (mb : LuaMailbox) (q c : Nat)
    (hreg : w.registry = [(name, p)])
    (hmb : alookup w.mbHeap p = some mb)
    (hctx : (alookup w.contexts mb.ctx).isSome = true)
    (hq : mb.messages.length = q)
    (hc : mb.messages_per_frame = c) :
    ∃ mb', alookup (LuaMailbox.Process w).mbHeap p = some mb' ∧
      mb'.messages.length = q - min q c := by
  obtain ⟨nm, hnm⟩ := Option.isSome_iff_exists.mp hctx
  have hP : LuaMailbox.Process w = processEntry w (name, p) := by
    rw [LuaMailbox.Process, hreg]; rfl
  rw [hP]
  unfold processEntry
  simp only [hmb, hnm]
  cases hdm : drainMailbox w.contexts mb w.respHeap with
  | mk mb' rh' =>
    refine ⟨mb', alookup_aset_self _ _ _, ?_⟩
    have hlen := drainLoop_length w.contexts mb.messages_per_frame mb w.respHeap
    have hfst : (drainLoop w.contexts mb.messages_per_frame mb w.respHeap).1
        = mb' := by
      rw [← drainMailbox, hdm]
    rw [hfst, hq, hc] at hlen
    exact hlen

/-- C5 witness: cap 2 with 5 queued messages — exactly 2 processed, 3
remain. -/
theorem process_drain_cap_witness :
    ∃ mb', alookup (LuaMailbox.Process wW5).mbHeap 0 = some mb' ∧
      mb'.messages.length = 5 - min 5 2 :=
  process_drain_cap wW5 "epsilon" 0 mbW5 5 2 rfl rfl (by decide) rfl rfl

/-! ## C6: ask on an absent or live target -/

/-- C6: `Ask` on a handle whose weak mailbox reference is dead immediately
returns a response already marked received with a nil value, enqueueing and
registering nothing (mailbox heap and registry are untouched); `Ask` on a
live target returns a still-unresolved response (received = false) that is
registered in the target's `m_responses` under the id returned by the send
(`Receive`). -/
theorem ask_absent_and_live_target
    (wD : World) (tD : Nat) (topD : String) (payD : LuaVal) (cD : Nat)
    (wL : World) (tL : Nat) (mbL : LuaMailbox) (topL : String)
    (payL : LuaVal) (cL : Nat)
    (hD : alookup wD.mbHeap tD = none)
    (hL : alookup wL.mbHeap tL = some mbL) :
    (alookup (LuaActor.Ask wD tD topD payD cD).1.respHeap
        (LuaActor.Ask wD tD topD payD cD).2 =
      some { m_received := true, m_value := LuaVal.nil,
             m_targetState := cD } ∧
     (LuaActor.Ask wD tD topD payD cD).1.mbHeap = wD.mbHeap ∧
     (LuaActor.Ask wD tD topD payD cD).1.registry = wD.registry) ∧
    (alookup (LuaActor.Ask wL tL topL payL cL).1.respHeap
        (LuaActor.Ask wL tL topL payL cL).2 =
      some { m_received := false, m_value := LuaVal.nil,
             m_targetState := cL } ∧
     ∃ mb2, alookup (LuaActor.Ask wL tL topL payL cL).1.mbHeap tL =
         some mb2 ∧
       alookup mb2.m_responses
           (LuaMailbox.Receive wL.contexts mbL topL payL).2 =
         some (LuaActor.Ask wL tL topL payL cL).2) := by
  constructor
  · unfold LuaActor.Ask
    simp only [hD]
    refine ⟨alookup_aset_self _ _ _, by trivial, by trivial⟩
  · unfold LuaActor.Ask
    simp only [hL]
    cases hrc : LuaMailbox.Receive wL.contexts mbL topL payL with
    | mk mb1 id =>
      refine ⟨alookup_aset_self _ _ _,
        mb1.AddResponse id wL.nextResp, alookup_aset_self _ _ _, ?_⟩
      unfold LuaMailbox.AddResponse
      exact alookup_aset_self _ _ _

/-- C6 witness: an ask against the empty world and an ask against a live
registered mailbox. -/
theorem ask_absent_and_live_target_witness :
    (alookup (LuaActor.Ask wW6D 0 "x" (LuaVal.num 1) 7).1.respHeap
        (LuaActor.Ask wW6D 0 "x" (LuaVal.num 1) 7).2 =
      some { m_received := true, m_value := LuaVal.nil,
             m_targetState := 7 } ∧
     (LuaActor.Ask wW6D 0 "x" (LuaVal.num 1) 7).1.mbHeap = wW6D.mbHeap ∧
     (LuaActor.Ask wW6D 0 "x" (LuaVal.num 1) 7).1.registry =
       wW6D.registry) ∧
    (alookup (LuaActor.Ask wW6L 0 "y" (LuaVal.num 2) 8).1.respHeap
        (LuaActor.Ask wW6L 0 "y" (LuaVal.num 2) 8).2 =
      some { m_received := false, m_value := LuaVal.nil,
             m_targetState := 8 } ∧
     ∃ mb2, alookup (LuaActor.Ask wW6L 0 "y" (LuaVal.num 2) 8).1.mbHeap 0 =
         some mb2 ∧
       alookup mb2.m_responses
           (LuaMailbox.Receive wW6L.contexts mbW6 "y" (LuaVal.num 2)).2 =
         some (LuaActor.Ask wW6L 0 "y" (LuaVal.num 2) 8).2) :=
  ask_absent_and_live_target wW6D 0 "x" (LuaVal.num 1) 7
    wW6L 0 mbW6 "y" (LuaVal.num 2) 8 rfl rfl

/-! ## C7: duplicate registration -/

/-- C7: a second `Register` call for a context whose name already has a
registered mailbox returns nil and changes nothing — the world is
unchanged, so the first mailbox stays reachable via `Get`; and whenever
`Register` succeeds, no mailbox was registered under the caller's name. -/
theorem register_duplicate_rejected (w : World) (ctx : Nat) (name : String)
    (w2 : World) (ctx2 : Nat)
    (hname : alookup w.contexts ctx = some name)
    (hdup : (regFind w.registry name).isSome = true)
    (hsucc : ((LuaMailbox.Register w2 ctx2).2).isSome = true) :
    LuaMailbox.Register w ctx = (w, none) ∧
    LuaActors.Get (LuaMailbox.Register w ctx).1 name = LuaActors.Get w name ∧
    ∃ name2, alookup w2.contexts ctx2 = some name2 ∧
      regFind w2.registry name2 = none := by
  obtain ⟨q, hq⟩ := Option.isSome_iff_exists.mp hdup
  have h1 : LuaMailbox.Register w ctx = (w, none) := by
    unfold LuaMailbox.Register
    simp only [hname, hq]
  refine ⟨h1, by rw [h1], ?_⟩
  unfold LuaMailbox.Register at hsucc
  cases hc2 : alookup w2.contexts ctx2 with
  | none => rw [hc2] at hsucc; simp at hsucc
  | some name2 =>
    simp only [hc2] at hsucc
    cases hf2 : regFind w2.registry name2 with
    | some r => simp only [hf2] at hsucc; simp at hsucc
    | none => exact ⟨name2, rfl, hf2⟩

/-- C7 witness: context 5 ("eta") registering again in `wW7`, and a
successful registration in `wW3`. -/
theorem register_duplicate_rejected_witness :
    LuaMailbox.Register wW7 5 = (wW7, none) ∧
    LuaActors.Get (LuaMailbox.Register wW7 5).1 "eta" =
      LuaActors.Get wW7 "eta" ∧
    ∃ name2, alookup wW3.contexts 1 = some name2 ∧
      regFind wW3.registry name2 = none :=
  register_duplicate_rejected wW7 5 "eta" wW3 1 rfl (by decide) (by decide)

/-! ## Case-insensitive equality lemmas -/

theorem ciEq_refl (a : String) : ciEq a a = true := by
  simp [ciEq]

theorem ciEq_trans {a b c : String} (h1 : ciEq a b = true)
    (h2 : ciEq b c = true) : ciEq a c = true := by
  simp only [ciEq, beq_iff_eq] at h1 h2 ⊢
  exact h1.trans h2

/-! ## Registry and destruction lemmas -/

theorem regFind_filter_none (reg : List (String × Nat)) (nm name' : String)
    (hci : ciEq name' nm = true) :
    regFind (reg.filter (fun e => !(ciEq e.1 nm))) name' = none := by
  induction reg with
  | nil => rfl
  | cons e rest ih =>
    by_cases he : ciEq e.1 nm = true
    · simpa [List.filter_cons, he] using ih
    · have hno : ciEq e.1 name' = false := by
        cases hq : ciEq e.1 name' with
        | false => rfl
        | true => exact absurd (ciEq_trans hq hci) (by simpa using he)
      simp only [List.filter_cons, he, Bool.not_false, if_true]
      simpa [regFind, hno] using ih

theorem destroy_respHeap (w : World) (p : Nat) :
    (LuaMailbox.destroy w p).respHeap = w.respHeap := by
  unfold LuaMailbox.destroy
  cases alookup w.mbHeap p <;> rfl

theorem destroy_regFind_none (w : World) (p : Nat) (mb : LuaMailbox)
    (name' : String) (hmb : alookup w.mbHeap p = some mb)
    (hci : ciEq name' mb.m_name = true) :
    regFind (LuaMailbox.destroy w p).registry name' = none := by
  unfold LuaMailbox.destroy
  simp only [hmb]
  exact regFind_filter_none _ _ _ hci

/-! ## Stability of unreferenced responses under the drain loop -/

theorem resolveStep_respRefs_subset (ctxs : List (Nat × String))
    (mb : LuaMailbox) (rh : List (Nat × LuaResponse)) (id : Int)
    (v : LuaVal) (x : Nat)
    (h : x ∈ respRefs (resolveStep ctxs mb rh id v).1) : x ∈ respRefs mb := by
  unfold resolveStep at h
  cases halk : alookup mb.m_responses id with
  | none => rw [halk] at h; exact h
  | some rp =>
    rw [halk] at h
    simp only [respRefs] at h ⊢
    exact aerase_values_subset _ _ _ h

theorem resolveStep_resp_stable (ctxs : List (Nat × String))
    (mb : LuaMailbox) (rh : List (Nat × LuaResponse)) (id : Int)
    (v : LuaVal) (rp : Nat) (h : rp ∉ respRefs mb) :
    alookup (resolveStep ctxs mb rh id v).2 rp = alookup rh rp := by
  unfold resolveStep
  split
  · rfl
  next q halk =>
    have hq : q ∈ respRefs mb := alookup_mem_values _ _ _ halk
    have hne : rp ≠ q := fun hc => h (hc ▸ hq)
    show alookup
        (match alookup rh q with
         | none => rh
         | some r =>
           match alookup ctxs r.m_targetState with
           | none => rh
           | some _ =>
             aset rh q
               { r with m_received := true, m_value := copyObject v }) rp =
      alookup rh rp
    split
    · rfl
    next r hq2 =>
      split
      · rfl
      next nm hq3 => exact alookup_aset_ne _ _ _ _ hne

theorem drainStep_respRefs_subset (ctxs : List (Nat × String))
    (mb : LuaMailbox) (rh : List (Nat × LuaResponse)) (x : Nat)
    (h : x ∈ respRefs (drainStep ctxs mb rh).1) : x ∈ respRefs mb := by
  unfold drainStep at h
  cases hpo : processOne mb with
  | mk mb' pr =>
    rw [hpo] at h
    have hsub := resolveStep_respRefs_subset ctxs mb' rh pr.1 pr.2 x h
    have hresp : mb'.m_responses = mb.m_responses := by
      have hpr := processOne_responses mb
      rw [hpo] at hpr
      exact hpr
    simpa [respRefs, hresp] using hsub

theorem drainStep_resp_stable (ctxs : List (Nat × String))
    (mb : LuaMailbox) (rh : List (Nat × LuaResponse)) (rp : Nat)
    (h : rp ∉ respRefs mb) :
    alookup (drainStep ctxs mb rh).2 rp = alookup rh rp := by
  unfold drainStep
  cases hpo : processOne mb with
  | mk mb' pr =>
    have hresp : mb'.m_responses = mb.m_responses := by
      have hpr := processOne_responses mb
      rw [hpo] at hpr
      exact hpr
    exact resolveStep_resp_stable ctxs mb' rh pr.1 pr.2 rp
      (by simpa [respRefs, hresp] using h)

theorem drainLoop_respRefs_subset (ctxs : List (Nat × String)) (x : Nat) :
    ∀ (fuel : Nat) (mb : LuaMailbox) (rh : List (Nat × LuaResponse)),
    x ∈ respRefs (drainLoop ctxs fuel mb rh).1 → x ∈ respRefs mb := by
  intro fuel
  induction fuel with
  | zero => intro mb rh h; simpa [drainLoop] using h
  | succ fuel ih =>
    intro mb rh h
    rw [drainLoop] at h
    by_cases hemp : mb.messages.isEmpty
    · rw [if_pos hemp] at h; simpa using h
    · rw [if_neg hemp] at h
      cases hds : drainStep ctxs mb rh with
      | mk mb' rh' =>
        rw [hds] at h
        have hin : x ∈ respRefs mb' := ih mb' rh' h
        have := drainStep_respRefs_subset ctxs mb rh x
        rw [hds] at this
        exact this hin

theorem drainLoop_resp_stable (ctxs : List (Nat × String)) (rp : Nat) :
    ∀ (fuel : Nat) (mb : LuaMailbox) (rh : List (Nat × LuaResponse)),
    rp ∉ respRefs mb →
    alookup (drainLoop ctxs fuel mb rh).2 rp = alookup rh rp := by
  intro fuel
  induction fuel with
  | zero => intro mb rh _; simp [drainLoop]
  | succ fuel ih =>
    intro mb rh h
    rw [drainLoop]
    by_cases hemp : mb.messages.isEmpty
    · rw [if_pos hemp]
    · rw [if_neg hemp]
      cases hds : drainStep ctxs mb rh with
      | mk mb' rh' =>
        have hsub : rp ∉ respRefs mb' := by
          intro hin
          have := drainStep_respRefs_subset ctxs mb rh rp
          rw [hds] at this
          exact h (this hin)
        have hst := drainStep_resp_stable ctxs mb rh rp h
        rw [hds] at hst
        rw [ih mb' rh' hsub, hst]

theorem processEntry_stable (w : World) (e : String × Nat) (rp : Nat)
    (h : NoRef w rp) :
    alookup (processEntry w e).respHeap rp = alookup w.respHeap rp ∧
    NoRef (processEntry w e) rp := by
  unfold processEntry
  split
  · exact ⟨rfl, h⟩
  next mb hmb =>
    split
    · exact ⟨rfl, h⟩
    next nm hnm =>
      cases hdm : drainMailbox w.contexts mb w.respHeap with
      | mk mb' rh' =>
        have hnomb : rp ∉ respRefs mb := h e.2 mb hmb
        constructor
        · have hst := drainLoop_resp_stable w.contexts rp
            mb.messages_per_frame mb w.respHeap hnomb
          rw [← drainMailbox, hdm] at hst
          exact hst
        · intro q mbq hlk
          by_cases hq : q = e.2
          · subst hq
            rw [alookup_aset_self] at hlk
            cases hlk
            intro hin
            have hsub := drainLoop_respRefs_subset w.contexts rp
              mb.messages_per_frame mb w.respHeap
            rw [← drainMailbox, hdm] at hsub
            exact hnomb (hsub hin)
          · rw [alookup_aset_ne _ _ _ _ hq] at hlk
            exact h q mbq hlk

theorem processFold_stable (rp : Nat) :
    ∀ (l : List (String × Nat)) (w : World), NoRef w rp →
    alookup (l.foldl processEntry w).respHeap rp = alookup w.respHeap rp ∧
    NoRef (l.foldl processEntry w) rp := by
  intro l
  induction l with
  | nil => intro w h; exact ⟨rfl, h⟩
  | cons e rest ih =>
    intro w h
    have h1 := processEntry_stable w e rp h
    have h2 := ih (processEntry w e) h1.2
    exact ⟨h2.1.trans h1.1, h2.2⟩

theorem process_stable (w : World) (rp : Nat) (h : NoRef w rp) :
    alookup (LuaMailbox.Process w).respHeap rp = alookup w.respHeap rp ∧
    NoRef (LuaMailbox.Process w) rp :=
  processFold_stable rp w.registry w h

theorem processIter_stable (rp : Nat) :
    ∀ (n : Nat) (w : World), NoRef w rp →
    alookup (processIter w n).respHeap rp = alookup w.respHeap rp := by
  intro n
  induction n with
  | zero => intro w _; rfl
  | succ n ih =>
    intro w h
    have h1 := process_stable w rp h
    have h2 := ih (LuaMailbox.Process w) h1.2
    exact h2.trans h1.1

theorem destroy_NoRef (w : World) (p : Nat) (mb : LuaMailbox) (rp : Nat)
    (hmb : alookup w.mbHeap p = some mb)
    (honly : ∀ q mbq, q ≠ p → alookup w.mbHeap q = some mbq →
      rp ∉ respRefs mbq) :
    NoRef (LuaMailbox.destroy w p) rp := by
  unfold LuaMailbox.destroy
  simp only [hmb]
  intro q mbq hlk
  by_cases hq : q = p
  · subst hq
    rw [alookup_aerase_self] at hlk
    cases hlk
  · rw [alookup_aerase_ne _ _ _ hq] at hlk
    exact honly q mbq hq hlk

/-! ## Registry invariant lemmas -/

theorem registryOk_filter (reg : List (String × Nat))
    (pred : String × Nat → Bool) (h : RegistryOk reg) :
    RegistryOk (reg.filter pred) :=
  h.filter pred

theorem regFind_none_forall (reg : List (String × Nat)) (name : String)
    (h : regFind reg name = none) :
    ∀ e ∈ reg, ciEq e.1 name = false := by
  induction reg with
  | nil => intro e he; cases he
  | cons a rest ih =>
    intro e he
    rw [regFind] at h
    by_cases ha : ciEq a.1 name = true
    · rw [if_pos ha] at h; cases h
    · have ha' : ciEq a.1 name = false := by simpa using ha
      rw [ha'] at h
      simp only [Bool.false_eq_true, if_false] at h
      rcases List.mem_cons.mp he with rfl | hmem
      · exact ha'
      · exact ih h e hmem

theorem register_RegistryOk (w : World) (ctx : Nat)
    (h : RegistryOk w.registry) :
    RegistryOk (LuaMailbox.Register w ctx).1.registry := by
  unfold LuaMailbox.Register
  split
  · exact h
  next name hname =>
    split
    · exact h
    next hfind =>
      show RegistryOk (w.registry ++ [(name, w.nextMb)])
      rw [RegistryOk, List.pairwise_append]
      refine ⟨h, List.pairwise_singleton _ _, ?_⟩
      intro a ha b hb
      rcases List.mem_singleton.mp hb with rfl
      exact regFind_none_forall w.registry name hfind a ha

theorem destroy_RegistryOk (w : World) (p : Nat)
    (h : RegistryOk w.registry) :
    RegistryOk (LuaMailbox.destroy w p).registry := by
  unfold LuaMailbox.destroy
  split
  · exact h
  next mb hmb => exact registryOk_filter _ _ h

theorem registryOk_unique (reg : List (String × Nat)) (name : String)
    (h : RegistryOk reg) :
    (reg.filter (fun e => ciEq e.1 name)).length ≤ 1 := by
  induction reg with
  | nil => simp
  | cons a rest ih =>
    obtain ⟨ha, hrest⟩ := List.pairwise_cons.mp h
    by_cases hfa : ciEq a.1 name = true
    · have hnone : rest.filter (fun e => ciEq e.1 name) = [] := by
        rw [List.filter_eq_nil_iff]
        intro b hb hfb
        have hfb' : ciEq b.1 name = true := by simpa using hfb
        have hba : ciEq name b.1 = true := by
          simp only [ciEq, beq_iff_eq] at hfb' ⊢
          exact hfb'.symm
        exact absurd (ciEq_trans hfa hba) (by simp [ha b hb])
      simp [List.filter_cons, hfa, hnone]
    · have hfa' : ciEq a.1 name = false := by simpa using hfa
      simpa [List.filter_cons, hfa'] using ih hrest

/-! ## C8: dangling cleanup and registry invariant -/

/-- C8: destroying a mailbox removes its registry entry, so that
immediately afterwards `Exists` is false and `Get` returns nothing for its
name under any case-insensitively equal spelling; a response still pending
on the destroyed mailbox (and referenced by no other mailbox) keeps its
received flag false permanently across any number of subsequent drain
(`Process`) invocations; and the registry keeps at most one live registered
mailbox per name: well-formedness is preserved by both destruction and
registration, and a well-formed registry holds at most one entry per
name. -/
theorem destroy_cleanup_and_registry_invariant
    (w : World) (p : Nat) (mb : LuaMailbox) (name' : String)
    (rp : Nat) (r : LuaResponse) (n : Nat)
    (w3 : World) (p3 ctx3 : Nat) (name3 : String)
    (hmb : alookup w.mbHeap p = some mb)
    (hci : ciEq name' mb.m_name = true)
    (hrp : rp ∈ respRefs mb)
    (hr : alookup w.respHeap rp = some r)
    (hrec : r.m_received = false)
    (honly : ∀ q mbq, q ≠ p → alookup w.mbHeap q = some mbq →
      rp ∉ respRefs mbq)
    (hok : RegistryOk w3.registry) :
    LuaActors.Exists (LuaMailbox.destroy w p) name' = false ∧
    LuaActors.Get (LuaMailbox.destroy w p) name' = none ∧
    alookup (processIter (LuaMailbox.destroy w p) n).respHeap rp = some r ∧
    r.m_received = false ∧
    RegistryOk (LuaMailbox.destroy w3 p3).registry ∧
    RegistryOk (LuaMailbox.Register w3 ctx3).1.registry ∧
    (w3.registry.filter (fun e => ciEq e.1 name3)).length ≤ 1 := by
  have hfind := destroy_regFind_none w p mb name' hmb hci
  have hnoref := destroy_NoRef w p mb rp hmb honly
  have hstable := processIter_stable rp n (LuaMailbox.destroy w p) hnoref
  refine ⟨?_, ?_, ?_, hrec, destroy_RegistryOk w3 p3 hok,
    register_RegistryOk w3 ctx3 hok, registryOk_unique _ _ hok⟩
  · rw [LuaActors.Exists, hfind]; rfl
  · rw [LuaActors.Get, hfind]
  · rw [hstable, destroy_respHeap, hr]

/-- C8 witness: destroying `mbW8` (registered as "theta") in `wW8`, probing
with the spelling "THETA", running two drain ticks afterwards, and checking
the invariant on `wW5`. -/
theorem destroy_cleanup_and_registry_invariant_witness :
    LuaActors.Exists (LuaMailbox.destroy wW8 0) "THETA" = false ∧
    LuaActors.Get (LuaMailbox.destroy wW8 0) "THETA" = none ∧
    alookup (processIter (LuaMailbox.destroy wW8 0) 2).respHeap 5 =
      some rW8 ∧
    rW8.m_received = false ∧
    RegistryOk (LuaMailbox.destroy wW5 0).registry ∧
    RegistryOk (LuaMailbox.Register wW5 2).1.registry ∧
    (wW5.registry.filter (fun e => ciEq e.1 "epsilon")).length ≤ 1 :=
  destroy_cleanup_and_registry_invariant wW8 0 mbW8 "THETA" 5 rW8 2
    wW5 0 2 "epsilon" rfl (by decide) (by decide) rfl rfl
    (by
      intro q mbq hq hl
      rw [show alookup wW8.mbHeap q =
          if (0 : Nat) = q then some mbW8 else none from rfl] at hl
      rw [if_neg (fun hc => hq hc.symm)] at hl
      cases hl)
    (by
      rw [show wW5.registry = [("epsilon", 0)] from rfl]
      exact List.pairwise_singleton _ _)

/-! ## C9: iteration contract -/

theorem findIdxCI_ok :
    ∀ (reg : List (String × Nat)) (i : Nat) (e : String × Nat),
    RegistryOk reg → reg.get? i = some e → findIdxCI reg e.1 = some i := by
  intro reg
  induction reg with
  | nil => intro i e _ hg; cases i <;> cases hg
  | cons a rest ih =>
    intro i e hok hg
    cases i with
    | zero =>
      rw [List.get?_cons_zero, Option.some.injEq] at hg
      subst hg
      rw [findIdxCI, if_pos (ciEq_refl _)]
    | succ i =>
      rw [List.get?_cons_succ] at hg
      obtain ⟨ha, hrest⟩ := List.pairwise_cons.mp hok
      have hmem : e ∈ rest := List.get?_mem hg
      have hne : ciEq a.1 e.1 = false := ha e hmem
      rw [findIdxCI, hne]
      simp only [Bool.false_eq_true, if_false]
      rw [ih i e hrest hg]
      rfl

/-- C9: the actors iteration is a pure function of the registry and the
previous key (hence stateless, lazy and restartable): on an empty registry
it returns nil; given no key it returns the first registered name; given a
registered name (in a well-formed registry, keys pairwise distinct
case-insensitively) it returns the next name in insertion order, or nil if
that name's entry is the last one. -/
theorem iteration_contract (k : Option String) (e : String × Nat)
    (rest : List (String × Nat)) (reg2 : List (String × Nat)) (i : Nat)
    (e2 : String × Nat)
    (hok : RegistryOk reg2) (hi : reg2.get? i = some e2) :
    StatelessIterator [] k = none ∧
    StatelessIterator (e :: rest) none = some e.1 ∧
    StatelessIterator reg2 (some e2.1) = (reg2.get? (i + 1)).map Prod.fst := by
  refine ⟨rfl, rfl, ?_⟩
  cases reg2 with
  | nil => cases i <;> cases hi
  | cons a rest2 =>
    rw [StatelessIterator]
    rw [findIdxCI_ok (a :: rest2) i e2 hok hi]

/-- C9 witness: a three-entry registry, iterating from its second name. -/
theorem iteration_contract_witness :
    StatelessIterator [] (some "z") = none ∧
    StatelessIterator [("a", 0), ("b", 1)] none = some "a" ∧
    StatelessIterator [("a", 0), ("b", 1), ("c", 2)] (some "b") =
      (([("a", 0), ("b", 1), ("c", 2)] :
          List (String × Nat)).get? (1 + 1)).map Prod.fst :=
  iteration_contract (some "z") ("a", 0) [("b", 1)]
    [("a", 0), ("b", 1), ("c", 2)] 1 ("b", 1)
    (by
      simp only [RegistryOk, List.pairwise_cons, List.forall_mem_cons,
        List.forall_mem_nil, List.Pairwise.nil, and_true]
      decide)
    rfl
